import Mathlib

/-!
Verification of the purchase/attestation/delivery settlement protocol and the
randomness-backed pricing mechanism of the FLARE proof-of-concept repository.

The development shallowly embeds:
* the `DataPurchaseRandomizer` Solidity contract (SRNG beacon randomness store
  and pricing engine), translated statement by statement, with EVM revert
  semantics modelled by `Except` (a reverted call leaves the pre-state in force);
* the `verifyAttestation` Express controller from `server/controllers/blockchain.js`;
* the `DataPurchase` ledger contract, whose Solidity source is not part of the
  sources at hand, modelled from the specification.

Machine integers are `Nat`/`Int`; the 256-bit overflow checks of Solidity 0.8
are made explicit exactly where the contract arithmetic can overflow.
-/

namespace DataPurchaseRandomizer

/-- EVM addresses, modelled as natural numbers; `0` is the zero address. -/
abbrev Address := Nat

/-- 32-byte identifiers (`bytes32`), modelled as natural numbers. -/
abbrev Bytes32 := Nat

/-- `2 ^ 255`, the magnitude bound of `int256`. -/
def TWO255 : Nat := 2 ^ 255

/-- `2 ^ 256`, the modulus of `uint256`. -/
def TWO256 : Nat := 2 ^ 256

/-- Revert reasons of the contract, one per `require` string plus the two
checked-arithmetic panics of Solidity 0.8. -/
inductive SolError where
  | alreadyFulfilled      -- "Already fulfilled"
  | srngNotReady          -- "SRNG not ready"
  | srngNotResolved       -- "SRNG not resolved"
  | onlyOwner             -- "Only owner"
  | arithmeticOverflow
  | arithmeticUnderflow
deriving DecidableEq, Repr

/-- Storage of the `DataPurchaseRandomizer` contract: the two address slots and
the four `mapping(bytes32 => ...)` entries, plus the native-token balance.
Solidity mappings default to zero values, so they are total functions. -/
structure RandomizerState where
  owner : Address
  registry : Address
  userProvidedIdToRandomValue : Bytes32 → Nat
  userProvidedIdFulfilled : Bytes32 → Bool
  userProvidedIdToTimestamp : Bytes32 → Nat
  userProvidedIdIsSecure : Bytes32 → Bool
  balance : Nat

/-- External world as seen by one call: the address the registry resolves for
the name RandomNumberV2, and the current SRNG beacon round
`(randomValue, isSecure, randomTimestamp)`. -/
structure Env where
  rngAddress : Address
  beaconValue : Nat
  beaconSecure : Bool
  beaconTimestamp : Nat

/-- The constructor: `owner = msg.sender; registry = _registry`. -/
def deploy (deployer : Address) (registryAddr : Address) : RandomizerState :=
  { owner := deployer
    registry := registryAddr
    userProvidedIdToRandomValue := fun _ => 0
    userProvidedIdFulfilled := fun _ => false
    userProvidedIdToTimestamp := fun _ => 0
    userProvidedIdIsSecure := fun _ => false
    balance := 0 }

/-- `storeRandomness(bytes32 _userProvidedId)`: requires the id unfulfilled,
resolves the SRNG through the registry (reverting on the zero address),
fetches the beacon triple, requires a non-zero random value, then writes the
four mappings and returns the fetched triple. -/
def storeRandomness (env : Env) (s : RandomizerState) (id : Bytes32) :
    Except SolError ((Nat × Bool × Nat) × RandomizerState) :=
  if s.userProvidedIdFulfilled id then .error .alreadyFulfilled
  else if env.rngAddress = 0 then .error .srngNotResolved
  else if env.beaconValue = 0 then .error .srngNotReady
  else .ok ((env.beaconValue, env.beaconSecure, env.beaconTimestamp),
    { s with
      userProvidedIdToRandomValue :=
        fun k => if k = id then env.beaconValue else s.userProvidedIdToRandomValue k
      userProvidedIdIsSecure :=
        fun k => if k = id then env.beaconSecure else s.userProvidedIdIsSecure k
      userProvidedIdToTimestamp :=
        fun k => if k = id then env.beaconTimestamp else s.userProvidedIdToTimestamp k
      userProvidedIdFulfilled :=
        fun k => if k = id then true else s.userProvidedIdFulfilled k })

/-- `getRandomValue(bytes32)`: returns the raw mapping value and the fulfilled
flag, unconditionally. -/
def getRandomValue (s : RandomizerState) (id : Bytes32) : Nat × Bool :=
  (s.userProvidedIdToRandomValue id, s.userProvidedIdFulfilled id)

/-- `getRandomnessMeta(bytes32)`: `(false, 0, false)` when unfulfilled, else
the stored security flag and timestamp. -/
def getRandomnessMeta (s : RandomizerState) (id : Bytes32) : Bool × Nat × Bool :=
  if s.userProvidedIdFulfilled id = false then (false, 0, false)
  else (s.userProvidedIdIsSecure id, s.userProvidedIdToTimestamp id, true)

/-- `getNormalizedRandomValue(bytes32)`: `(0, false)` when unfulfilled, else
the stored random value reduced mod 1000. -/
def getNormalizedRandomValue (s : RandomizerState) (id : Bytes32) : Nat × Bool :=
  if s.userProvidedIdFulfilled id = false then (0, false)
  else (s.userProvidedIdToRandomValue id % 1000, true)

/-- The Solidity 0.8 explicit cast `int256(u)` of a `uint256` value: a plain
bit reinterpretation in two-complement form, never a revert. -/
def int256ofUInt (u : Nat) : Int :=
  if u < TWO255 then (u : Int) else (u : Int) - (TWO256 : Int)

/-- The tail of `getRandomPriceVariation` after `variationFactor` has been
computed: the checked `int256` subtraction result must fit in `int256`, then
the price adjustment is applied with checked `uint256` arithmetic
(`_basePrice * uint256(vf) / 100` added or subtracted). -/
def applyVariation (basePrice : Nat) (vf : Int) : Except SolError (Nat × Int × Bool) :=
  if vf < -(TWO255 : Int) ∨ (TWO255 : Int) ≤ vf then .error .arithmeticOverflow
  else if 0 ≤ vf then
    if TWO256 ≤ basePrice * vf.toNat then .error .arithmeticOverflow
    else if TWO256 ≤ basePrice + basePrice * vf.toNat / 100 then .error .arithmeticOverflow
    else .ok (basePrice + basePrice * vf.toNat / 100, vf, true)
  else
    if vf = -(TWO255 : Int) then .error .arithmeticOverflow
    else if TWO256 ≤ basePrice * (-vf).toNat then .error .arithmeticOverflow
    else if basePrice < basePrice * (-vf).toNat / 100 then .error .arithmeticUnderflow
    else .ok (basePrice - basePrice * (-vf).toNat / 100, vf, true)

/-- The fulfilled branch of `getRandomPriceVariation`: computes
`variationFactor = int256(randomValue % (2 * _variationPercent + 1)) - int256(_variationPercent)`
with the checked `uint256` evaluation of `2 * _variationPercent + 1`,
then applies the variation to the base price. -/
def priceVariationCore (randomValue basePrice variationPercent : Nat) :
    Except SolError (Nat × Int × Bool) :=
  if TWO256 ≤ 2 * variationPercent then .error .arithmeticOverflow
  else if TWO256 ≤ 2 * variationPercent + 1 then .error .arithmeticOverflow
  else applyVariation basePrice
    (int256ofUInt (randomValue % (2 * variationPercent + 1)) - int256ofUInt variationPercent)

/-- `getRandomPriceVariation(bytes32, uint256, uint256)`: the sentinel
`(_basePrice, 0, false)` when unfulfilled, else the variation computation on
the stored random value. -/
def getRandomPriceVariation (s : RandomizerState) (id : Bytes32)
    (basePrice variationPercent : Nat) : Except SolError (Nat × Int × Bool) :=
  if s.userProvidedIdFulfilled id = false then .ok (basePrice, 0, false)
  else priceVariationCore (s.userProvidedIdToRandomValue id) basePrice variationPercent

/-- `updateRegistry(address)`, guarded by the `onlyOwner` modifier. -/
def updateRegistry (sender : Address) (s : RandomizerState) (newRegistry : Address) :
    Except SolError RandomizerState :=
  if sender = s.owner then .ok { s with registry := newRegistry }
  else .error .onlyOwner

/-- `withdraw()`, guarded by `onlyOwner`: transfers the whole balance to the
owner (the transfer itself is external; only the balance drop is storage). -/
def withdraw (sender : Address) (s : RandomizerState) : Except SolError RandomizerState :=
  if sender = s.owner then .ok { s with balance := 0 }
  else .error .onlyOwner

/-- The `receive()` fallback: accepts value, touching no storage slot. -/
def receiveEth (s : RandomizerState) (amount : Nat) : RandomizerState :=
  { s with balance := s.balance + amount }

/-- One external call to the contract: every `external` entry point of
`DataPurchaseRandomizer`, with the calling address where the body reads it. -/
inductive Call where
  | storeRandomness (id : Bytes32)
  | getRandomValue (id : Bytes32)
  | getRandomnessMeta (id : Bytes32)
  | getNormalizedRandomValue (id : Bytes32)
  | getRandomPriceVariation (id : Bytes32) (basePrice variationPercent : Nat)
  | updateRegistry (sender : Address) (newRegistry : Address)
  | withdraw (sender : Address)
  | receiveEth (amount : Nat)

/-- State after one call with EVM revert semantics: a reverted call rolls the
storage back, a `view` call has no storage writes in its body. -/
def applyCall (env : Env) (s : RandomizerState) : Call → RandomizerState
  | .storeRandomness id =>
      match storeRandomness env s id with
      | .ok (_, s') => s'
      | .error _ => s
  | .getRandomValue _ => s
  | .getRandomnessMeta _ => s
  | .getNormalizedRandomValue _ => s
  | .getRandomPriceVariation _ _ _ => s
  | .updateRegistry sender newRegistry =>
      match updateRegistry sender s newRegistry with
      | .ok s' => s'
      | .error _ => s
  | .withdraw sender =>
      match withdraw sender s with
      | .ok s' => s'
      | .error _ => s
  | .receiveEth amount => receiveEth s amount

/-- State after a sequence of calls, each under its own environment (the
beacon value changes between rounds). -/
def applyCalls (s : RandomizerState) (calls : List (Env × Call)) : RandomizerState :=
  calls.foldl (fun t ec => applyCall ec.1 t ec.2) s

/-- Recognizer for the one entry point that writes the registry slot. -/
def Call.isUpdateRegistry : Call → Bool
  | .updateRegistry _ _ => true
  | _ => false

/-- A sample environment: resolvable SRNG, beacon round `(42, true, 777)`. -/
def sampleEnv : Env :=
  { rngAddress := 1, beaconValue := 42, beaconSecure := true, beaconTimestamp := 777 }

/-- A sample contract state owned by address 1 with registry 5, in which the
id 9 is fulfilled with random value 36 (note `36 % 21 = 15`, the worked
example of the spec). -/
def sampleFulfilled : RandomizerState :=
  { owner := 1
    registry := 5
    userProvidedIdToRandomValue := fun k => if k = 9 then 36 else 0
    userProvidedIdFulfilled := fun k => k == 9
    userProvidedIdToTimestamp := fun k => if k = 9 then 777 else 0
    userProvidedIdIsSecure := fun k => k == 9
    balance := 0 }

end DataPurchaseRandomizer

namespace DataPurchase

/-- Modelled from the spec: the `DataPurchase` ledger contract lives in
`contracts/DataPurchase.sol`, which is absent from the sources at hand (only
its ABI in `web-app/flare-vrf.js` and its caller `scripts/test_datapurchase.js`
are present). The request record follows section 3 of the spec: buyer, escrowed
amount, lifecycle state, and the `dataHash` set only on delivery. -/
inductive ReqState where
  | created
  | attestationRequested
  | attestationVerified
  | delivered
  | failed
deriving DecidableEq, Repr

/-- Modelled from the spec: one `PurchaseRequest` record of the Ledger. -/
structure PurchaseRequest where
  buyer : Nat
  amountPaid : Nat
  state : ReqState
  dataHash : Nat
deriving DecidableEq, Repr

/-- Modelled from the spec: Ledger storage — the append-only request map, the
escrowed funds, and the cumulative amount released to the configured payee. -/
structure LedgerState where
  requests : Nat → Option PurchaseRequest
  escrow : Nat
  payeeBalance : Nat

/-- Modelled from the spec: the failure modes of `purchase` and `deliverData`
named in section 4.1. -/
inductive LedgerError where
  | duplicateRequest
  | insufficientPayment
  | unknownRequest
  | alreadyDelivered
  | invalidProof
deriving DecidableEq, Repr

/-- Modelled from the spec: parameters fixed at deployment — the minimum
payment, the verification predicate for proofs (the FDC verification
contract), and the `dataHash` computation over the attestation response and
proof. -/
structure LedgerEnv where
  minPayment : Nat
  verifyProof : Nat → Nat → List Nat → Bool
  computeHash : Nat → List Nat → Nat

/-- Modelled from the spec: `purchase(requestId, payment)` fails with
`DuplicateRequest` when the id exists and `InsufficientPayment` below the
minimum; on success escrows the payment and opens the request in `Created`. -/
def purchase (env : LedgerEnv) (s : LedgerState) (buyer requestId payment : Nat) :
    Except LedgerError LedgerState :=
  match s.requests requestId with
  | some _ => .error .duplicateRequest
  | none =>
    if payment < env.minPayment then .error .insufficientPayment
    else .ok
      { s with
        requests := fun k =>
          if k = requestId then
            some { buyer := buyer, amountPaid := payment, state := .created, dataHash := 0 }
          else s.requests k
        escrow := s.escrow + payment }

/-- Modelled from the spec: `deliverData(requestId, attestationResponse, proof)`
fails with `UnknownRequest` when the id is absent, `AlreadyDelivered` when the
state is already `Delivered`, and `InvalidProof` when local verification
rejects; on success it transitions to `Delivered`, stores the computed
`dataHash`, and releases the escrowed funds to the payee. -/
def deliverData (env : LedgerEnv) (s : LedgerState)
    (requestId attestationResponse : Nat) (proof : List Nat) :
    Except LedgerError LedgerState :=
  match s.requests requestId with
  | none => .error .unknownRequest
  | some r =>
    if r.state = .delivered then .error .alreadyDelivered
    else if env.verifyProof requestId attestationResponse proof = false then
      .error .invalidProof
    else .ok
      { s with
        requests := fun k =>
          if k = requestId then
            some { r with
              state := .delivered
              dataHash := env.computeHash attestationResponse proof }
          else s.requests k
        escrow := s.escrow - r.amountPaid
        payeeBalance := s.payeeBalance + r.amountPaid }

/-- State after a `deliverData` call under EVM revert semantics: a reverted
call leaves the ledger untouched. -/
def applyDeliver (env : LedgerEnv) (s : LedgerState)
    (requestId attestationResponse : Nat) (proof : List Nat) : LedgerState :=
  match deliverData env s requestId attestationResponse proof with
  | .ok s' => s'
  | .error _ => s

/-- A sample ledger environment: minimum payment 1, a verification predicate
that accepts, and a hash computed from the attestation response. -/
def sampleLedgerEnv : LedgerEnv :=
  { minPayment := 1, verifyProof := fun _ _ _ => true, computeHash := fun a _ => a + 1 }

/-- A sample ledger holding one open request (id 2, buyer 3, 10 escrowed). -/
def sampleLedger0 : LedgerState :=
  { requests := fun k =>
      if k = 2 then some { buyer := 3, amountPaid := 10, state := .created, dataHash := 0 }
      else none
    escrow := 10
    payeeBalance := 0 }

/-- The sample ledger after a successful delivery of request 2. -/
def sampleLedger1 : LedgerState := applyDeliver sampleLedgerEnv sampleLedger0 2 5 [1, 2]

end DataPurchase

namespace BlockchainController

/-- Responses of the `verifyAttestation` controller in
`server/controllers/blockchain.js`: the 400 rejection for a missing
`requestId`, and the JSON mock result. -/
structure VerifyOk where
  verified : Bool
  status : String
  message : String
  attestationResponse : List Nat
  proof : List Nat
deriving DecidableEq, Repr

/-- An HTTP response of `POST /verify`. -/
inductive VerifyResponse where
  | badRequest (error : String)
  | ok (result : VerifyOk)
deriving DecidableEq, Repr

/-- The denominator of a `Math.random()` draw: the doubles produced by the
PRNG are the dyadic rationals `k / 2 ^ 53` with `0 ≤ k < 2 ^ 53`; a draw is
represented by its numerator `k`. -/
def RAND_DEN : Nat := 2 ^ 53

/-- One hex digit produced by `Math.floor(Math.random() * 16)` from the draw
`k / 2 ^ 53`: the floor of `16 k / 2 ^ 53`. -/
def hexDigit (draw : Nat) : Nat := draw * 16 / RAND_DEN

/-- `exports.verifyAttestation`: rejects a missing (or empty, hence falsy)
`requestId` with a 400, and otherwise builds the mock result by consuming
fresh `Math.random()` draws — one for `verified` (`> 0.5` is
`2 k > 2 ^ 53`), one for `status`, 64 hex digits for `attestationResponse`
and 128 for `proof`. The argument `randomStream` is the segment of PRNG
output consumed by this one invocation; a second invocation consumes a
further, unrelated segment. -/
def verifyAttestation (randomStream : Nat → Nat) (requestId : Option String) :
    VerifyResponse :=
  match requestId with
  | none => .badRequest "Missing requestId parameter"
  | some rid =>
    if rid = "" then .badRequest "Missing requestId parameter"
    else .ok
      { verified := if RAND_DEN < 2 * randomStream 0 then true else false
        status := if RAND_DEN < 2 * randomStream 1 then "verified" else "pending"
        message := "Attestation verification result"
        attestationResponse := (List.range 64).map fun i => hexDigit (randomStream (2 + i))
        proof := (List.range 128).map fun i => hexDigit (randomStream (66 + i)) }

end BlockchainController

namespace DataPurchaseRandomizer

/-- A successful `storeRandomness` call starts from an unfulfilled id, returns
the beacon triple, and writes exactly the four mapping entries of that id. -/
theorem storeRandomness_ok_inv {env : Env} {s : RandomizerState} {id : Bytes32}
    {ret : Nat × Bool × Nat} {s' : RandomizerState}
    (h : storeRandomness env s id = .ok (ret, s')) :
    s.userProvidedIdFulfilled id = false ∧
    ret = (env.beaconValue, env.beaconSecure, env.beaconTimestamp) ∧
    s' = { s with
      userProvidedIdToRandomValue :=
        fun k => if k = id then env.beaconValue else s.userProvidedIdToRandomValue k
      userProvidedIdIsSecure :=
        fun k => if k = id then env.beaconSecure else s.userProvidedIdIsSecure k
      userProvidedIdToTimestamp :=
        fun k => if k = id then env.beaconTimestamp else s.userProvidedIdToTimestamp k
      userProvidedIdFulfilled :=
        fun k => if k = id then true else s.userProvidedIdFulfilled k } := by
  unfold storeRandomness at h
  split at h
  next hf => exact absurd h (by simp)
  next hf =>
    split at h
    next => exact absurd h (by simp)
    next =>
      split at h
      next => exact absurd h (by simp)
      next =>
        simp only [Except.ok.injEq, Prod.mk.injEq] at h
        exact ⟨by simpa using hf, h.1.symm, h.2.symm⟩

/-- A successful `updateRegistry` call comes from the owner and rewrites only
the registry slot. -/
theorem updateRegistry_ok_inv {sender : Address} {s s' : RandomizerState}
    {newRegistry : Address} (h : updateRegistry sender s newRegistry = .ok s') :
    sender = s.owner ∧ s' = { s with registry := newRegistry } := by
  unfold updateRegistry at h
  split at h
  next hs => simp only [Except.ok.injEq] at h; exact ⟨hs, h.symm⟩
  next => exact absurd h (by simp)

/-- A successful `withdraw` call comes from the owner and only zeroes the
balance. -/
theorem withdraw_ok_inv {sender : Address} {s s' : RandomizerState}
    (h : withdraw sender s = .ok s') :
    sender = s.owner ∧ s' = { s with balance := 0 } := by
  unfold withdraw at h
  split at h
  next hs => simp only [Except.ok.injEq] at h; exact ⟨hs, h.symm⟩
  next => exact absurd h (by simp)

/-- No entry point of the contract writes the `owner` slot. -/
theorem applyCall_owner (env : Env) (s : RandomizerState) (c : Call) :
    (applyCall env s c).owner = s.owner := by
  cases c with
  | storeRandomness id =>
    simp only [applyCall]
    split
    · rename_i p s' heq
      rw [(storeRandomness_ok_inv heq).2.2]
    · rfl
  | updateRegistry sender newRegistry =>
    simp only [applyCall]
    split
    · rename_i s' heq
      rw [(updateRegistry_ok_inv heq).2]
    · rfl
  | withdraw sender =>
    simp only [applyCall]
    split
    · rename_i s' heq
      rw [(withdraw_ok_inv heq).2]
    · rfl
  | receiveEth amount => rfl
  | getRandomValue id => rfl
  | getRandomnessMeta id => rfl
  | getNormalizedRandomValue id => rfl
  | getRandomPriceVariation id b p => rfl

/-- No entry point other than `updateRegistry` writes the `registry` slot. -/
theorem applyCall_registry (env : Env) (s : RandomizerState) (c : Call)
    (hc : c.isUpdateRegistry = false) :
    (applyCall env s c).registry = s.registry := by
  cases c with
  | storeRandomness id =>
    simp only [applyCall]
    split
    · rename_i p s' heq
      rw [(storeRandomness_ok_inv heq).2.2]
    · rfl
  | updateRegistry sender newRegistry => exact absurd hc (by simp [Call.isUpdateRegistry])
  | withdraw sender =>
    simp only [applyCall]
    split
    · rename_i s' heq
      rw [(withdraw_ok_inv heq).2]
    · rfl
  | receiveEth amount => rfl
  | getRandomValue id => rfl
  | getRandomnessMeta id => rfl
  | getNormalizedRandomValue id => rfl
  | getRandomPriceVariation id b p => rfl

/-- Once an id is fulfilled, no single call changes its stored triple or its
fulfilled flag. -/
theorem applyCall_preserves_stored (env : Env) (s : RandomizerState) (c : Call)
    (id : Bytes32) (h : s.userProvidedIdFulfilled id = true) :
    (applyCall env s c).userProvidedIdToRandomValue id = s.userProvidedIdToRandomValue id ∧
    (applyCall env s c).userProvidedIdIsSecure id = s.userProvidedIdIsSecure id ∧
    (applyCall env s c).userProvidedIdToTimestamp id = s.userProvidedIdToTimestamp id ∧
    (applyCall env s c).userProvidedIdFulfilled id = true := by
  cases c with
  | storeRandomness id' =>
    simp only [applyCall]
    split
    · rename_i p s' heq
      obtain ⟨hnf, -, hs'⟩ := storeRandomness_ok_inv heq
      have hne : id ≠ id' := by
        intro hcontra
        rw [hcontra, hnf] at h
        exact absurd h (by decide)
      subst hs'
      simp [hne, h]
    · exact ⟨rfl, rfl, rfl, h⟩
  | updateRegistry sender newRegistry =>
    simp only [applyCall]
    split
    · rename_i s' heq
      rw [(updateRegistry_ok_inv heq).2]
      exact ⟨rfl, rfl, rfl, h⟩
    · exact ⟨rfl, rfl, rfl, h⟩
  | withdraw sender =>
    simp only [applyCall]
    split
    · rename_i s' heq
      rw [(withdraw_ok_inv heq).2]
      exact ⟨rfl, rfl, rfl, h⟩
    · exact ⟨rfl, rfl, rfl, h⟩
  | receiveEth amount => exact ⟨rfl, rfl, rfl, h⟩
  | getRandomValue id' => exact ⟨rfl, rfl, rfl, h⟩
  | getRandomnessMeta id' => exact ⟨rfl, rfl, rfl, h⟩
  | getNormalizedRandomValue id' => exact ⟨rfl, rfl, rfl, h⟩
  | getRandomPriceVariation id' b p => exact ⟨rfl, rfl, rfl, h⟩

/-- Once an id is fulfilled, no sequence of calls changes its stored triple or
its fulfilled flag. -/
theorem applyCalls_preserves_stored (s : RandomizerState) (id : Bytes32)
    (h : s.userProvidedIdFulfilled id = true) (calls : List (Env × Call)) :
    (applyCalls s calls).userProvidedIdToRandomValue id = s.userProvidedIdToRandomValue id ∧
    (applyCalls s calls).userProvidedIdIsSecure id = s.userProvidedIdIsSecure id ∧
    (applyCalls s calls).userProvidedIdToTimestamp id = s.userProvidedIdToTimestamp id ∧
    (applyCalls s calls).userProvidedIdFulfilled id = true := by
  induction calls generalizing s with
  | nil => exact ⟨rfl, rfl, rfl, h⟩
  | cons ec rest ih =>
    have step := applyCall_preserves_stored ec.1 s ec.2 id h
    have tail := ih (applyCall ec.1 s ec.2) step.2.2.2
    exact ⟨tail.1.trans step.1, tail.2.1.trans step.2.1,
      tail.2.2.1.trans step.2.2.1, tail.2.2.2⟩

/-- `owner` is invariant under any sequence of calls. -/
theorem applyCalls_owner (s : RandomizerState) (calls : List (Env × Call)) :
    (applyCalls s calls).owner = s.owner := by
  induction calls generalizing s with
  | nil => rfl
  | cons ec rest ih =>
    show (applyCalls (applyCall ec.1 s ec.2) rest).owner = s.owner
    rw [ih, applyCall_owner]

/-- A successful `applyVariation` returns its input factor, which passed the
`int256` range check, and the price adjusted by the truncating division. -/
theorem applyVariation_ok {basePrice : Nat} {vf0 : Int} {fp : Nat} {vf : Int}
    (h : applyVariation basePrice vf0 = .ok (fp, vf, true)) :
    vf = vf0 ∧ -(TWO255 : Int) ≤ vf0 ∧ vf0 < (TWO255 : Int) ∧
    (0 ≤ vf0 → fp = basePrice + basePrice * vf0.toNat / 100) ∧
    (vf0 < 0 → fp = basePrice - basePrice * (-vf0).toNat / 100) := by
  unfold applyVariation at h
  split at h
  next => exact absurd h (by simp)
  next hrange =>
    push_neg at hrange
    obtain ⟨hlo, hhi⟩ := hrange
    split at h
    next hpos =>
      split at h
      next => exact absurd h (by simp)
      next =>
        split at h
        next => exact absurd h (by simp)
        next =>
          simp only [Except.ok.injEq, Prod.mk.injEq, and_true] at h
          exact ⟨h.2.symm, hlo, hhi, fun _ => h.1.symm,
            fun hneg => absurd hneg (by omega)⟩
    next hpos =>
      split at h
      next => exact absurd h (by simp)
      next =>
        split at h
        next => exact absurd h (by simp)
        next =>
          split at h
          next => exact absurd h (by simp)
          next =>
            simp only [Except.ok.injEq, Prod.mk.injEq, and_true] at h
            exact ⟨h.2.symm, hlo, hhi, fun hp => absurd hp (by omega),
              fun _ => h.1.symm⟩

/-- When `2 * P + 1` fits in `uint256` and the factor passed the `int256`
range check, the two bit-reinterpreting casts were in fact faithful: the
factor is the plain integer difference, and the reduced random value lies
below `2 ^ 255`. -/
theorem int256_sub_faithful {r P : Nat} (hm : 2 * P + 1 < TWO256) (hr : r ≤ 2 * P)
    (hlo : -(TWO255 : Int) ≤ int256ofUInt r - int256ofUInt P) :
    int256ofUInt r - int256ofUInt P = (r : Int) - (P : Int) ∧ r < TWO255 := by
  have h2 : TWO256 = 2 * TWO255 := by
    show 2 ^ 256 = 2 * 2 ^ 255
    rw [pow_succ]
    ring
  have hP : P < TWO255 := by omega
  unfold int256ofUInt at hlo ⊢
  rw [if_pos hP] at hlo ⊢
  by_cases hrT : r < TWO255
  · rw [if_pos hrT]
    exact ⟨rfl, hrT⟩
  · rw [if_neg hrT] at hlo
    exfalso
    omega

/-- The input-output relation of the fulfilled branch of
`getRandomPriceVariation`: whenever it returns, the variation factor is the
exact integer `randomValue % (2 P + 1) - P`, it lies in `[-P, P]`, and the
final price follows the truncating-division formula. -/
theorem priceVariationCore_ok {randomValue basePrice variationPercent : Nat}
    {fp : Nat} {vf : Int}
    (h : priceVariationCore randomValue basePrice variationPercent = .ok (fp, vf, true)) :
    vf = ((randomValue % (2 * variationPercent + 1) : Nat) : Int) - (variationPercent : Int) ∧
    -(variationPercent : Int) ≤ vf ∧ vf ≤ (variationPercent : Int) ∧
    (0 ≤ vf → fp = basePrice + basePrice * vf.toNat / 100) ∧
    (vf < 0 → fp = basePrice - basePrice * (-vf).toNat / 100) := by
  unfold priceVariationCore at h
  split at h
  next => exact absurd h (by simp)
  next h1 =>
    split at h
    next => exact absurd h (by simp)
    next h2 =>
      obtain ⟨hvf, hlo, hhi, hpos, hneg⟩ := applyVariation_ok h
      have hm : 2 * variationPercent + 1 < TWO256 := by omega
      have hrle : randomValue % (2 * variationPercent + 1) ≤ 2 * variationPercent := by
        have := Nat.mod_lt randomValue (y := 2 * variationPercent + 1) (by omega)
        omega
      subst hvf
      obtain ⟨heq, -⟩ := int256_sub_faithful hm hrle hlo
      refine ⟨heq, ?_, ?_, hpos, hneg⟩
      · rw [heq]
        omega
      · rw [heq]
        omega

/-- Claim C2: once `fulfilled` is true for a `userProvidedId`, no sequence of
contract calls ever changes the stored `(randomValue, isSecure, timestamp)`
triple or resets the flag, and any later `storeRandomness` on that id reverts
with `AlreadyFulfilled` without refreshing the stored value (first writer
wins). -/
theorem fulfilled_at_most_once (s : RandomizerState) (id : Bytes32)
    (h : s.userProvidedIdFulfilled id = true) (calls : List (Env × Call)) :
    (applyCalls s calls).userProvidedIdToRandomValue id = s.userProvidedIdToRandomValue id ∧
    (applyCalls s calls).userProvidedIdIsSecure id = s.userProvidedIdIsSecure id ∧
    (applyCalls s calls).userProvidedIdToTimestamp id = s.userProvidedIdToTimestamp id ∧
    (applyCalls s calls).userProvidedIdFulfilled id = true ∧
    (∀ env : Env,
      storeRandomness env (applyCalls s calls) id = .error .alreadyFulfilled ∧
      applyCall env (applyCalls s calls) (.storeRandomness id) = applyCalls s calls) := by
  obtain ⟨h1, h2, h3, h4⟩ := applyCalls_preserves_stored s id h calls
  refine ⟨h1, h2, h3, h4, fun env => ?_⟩
  have he : storeRandomness env (applyCalls s calls) id = .error .alreadyFulfilled := by
    unfold storeRandomness
    rw [h4]
    simp
  exact ⟨he, by simp only [applyCall, he]⟩

/-- Claim C2 witness: a fulfilled id survives a concrete call sequence with
the stored triple intact, and a repeated `storeRandomness` reverts. -/
theorem fulfilled_at_most_once_witness :
    (applyCalls sampleFulfilled
        [(sampleEnv, .receiveEth 5), (sampleEnv, .storeRandomness 9)]).userProvidedIdToRandomValue 9 =
      sampleFulfilled.userProvidedIdToRandomValue 9 ∧
    (applyCalls sampleFulfilled
        [(sampleEnv, .receiveEth 5), (sampleEnv, .storeRandomness 9)]).userProvidedIdFulfilled 9 = true ∧
    storeRandomness sampleEnv
        (applyCalls sampleFulfilled [(sampleEnv, .receiveEth 5), (sampleEnv, .storeRandomness 9)]) 9 =
      .error .alreadyFulfilled := by
  have h := fulfilled_at_most_once sampleFulfilled 9 (by decide)
    [(sampleEnv, .receiveEth 5), (sampleEnv, .storeRandomness 9)]
  exact ⟨h.1, h.2.2.2.1, (h.2.2.2.2 sampleEnv).1⟩

/-- Claim C3: `storeRandomness` reverts with `AlreadyFulfilled` on a fulfilled
id and with the beacon-not-ready error on a zero beacon value, in both cases
persisting nothing; otherwise it persists the beacon triple for the id, marks
it fulfilled, leaves every other id untouched, and returns the stored
values. -/
theorem storeRandomness_spec (env : Env) (s : RandomizerState) (id : Bytes32)
    (hrng : env.rngAddress ≠ 0) :
    (s.userProvidedIdFulfilled id = true →
      storeRandomness env s id = .error .alreadyFulfilled ∧
      applyCall env s (.storeRandomness id) = s) ∧
    (s.userProvidedIdFulfilled id = false → env.beaconValue = 0 →
      storeRandomness env s id = .error .srngNotReady ∧
      applyCall env s (.storeRandomness id) = s) ∧
    (s.userProvidedIdFulfilled id = false → env.beaconValue ≠ 0 →
      storeRandomness env s id =
        .ok ((env.beaconValue, env.beaconSecure, env.beaconTimestamp),
          applyCall env s (.storeRandomness id)) ∧
      (applyCall env s (.storeRandomness id)).userProvidedIdToRandomValue id = env.beaconValue ∧
      (applyCall env s (.storeRandomness id)).userProvidedIdIsSecure id = env.beaconSecure ∧
      (applyCall env s (.storeRandomness id)).userProvidedIdToTimestamp id = env.beaconTimestamp ∧
      (applyCall env s (.storeRandomness id)).userProvidedIdFulfilled id = true ∧
      (∀ j, j ≠ id →
        (applyCall env s (.storeRandomness id)).userProvidedIdToRandomValue j =
          s.userProvidedIdToRandomValue j ∧
        (applyCall env s (.storeRandomness id)).userProvidedIdIsSecure j =
          s.userProvidedIdIsSecure j ∧
        (applyCall env s (.storeRandomness id)).userProvidedIdToTimestamp j =
          s.userProvidedIdToTimestamp j ∧
        (applyCall env s (.storeRandomness id)).userProvidedIdFulfilled j =
          s.userProvidedIdFulfilled j)) := by
  refine ⟨?_, ?_, ?_⟩
  · intro hf
    have he : storeRandomness env s id = .error .alreadyFulfilled := by
      unfold storeRandomness
      rw [hf]
      simp
    exact ⟨he, by simp only [applyCall, he]⟩
  · intro hf hb
    have he : storeRandomness env s id = .error .srngNotReady := by
      unfold storeRandomness
      rw [hf]
      simp [hrng, hb]
    exact ⟨he, by simp only [applyCall, he]⟩
  · intro hf hbne
    cases heq : storeRandomness env s id with
    | error e =>
      exfalso
      unfold storeRandomness at heq
      rw [hf] at heq
      simp [hrng, hbne] at heq
    | ok p =>
      obtain ⟨ret, s'⟩ := p
      obtain ⟨-, hret, hs'⟩ := storeRandomness_ok_inv heq
      have hpost : applyCall env s (.storeRandomness id) = s' := by
        simp only [applyCall, heq]
      subst hret
      refine ⟨by rw [hpost], ?_, ?_, ?_, ?_, ?_⟩
      · rw [hpost, hs']
        simp
      · rw [hpost, hs']
        simp
      · rw [hpost, hs']
        simp
      · rw [hpost, hs']
        simp
      · intro j hj
        rw [hpost, hs']
        refine ⟨?_, ?_, ?_, ?_⟩ <;> simp [hj]

/-- Claim C3 witness: on a fresh deployment with a live beacon, storing id 9
persists `(42, true, 777)`, marks it fulfilled and leaves id 3 untouched. -/
theorem storeRandomness_spec_witness :
    storeRandomness sampleEnv (deploy 1 5) 9 =
      .ok ((42, true, 777), applyCall sampleEnv (deploy 1 5) (.storeRandomness 9)) ∧
    (applyCall sampleEnv (deploy 1 5) (.storeRandomness 9)).userProvidedIdToRandomValue 9 = 42 ∧
    (applyCall sampleEnv (deploy 1 5) (.storeRandomness 9)).userProvidedIdIsSecure 9 = true ∧
    (applyCall sampleEnv (deploy 1 5) (.storeRandomness 9)).userProvidedIdToTimestamp 9 = 777 ∧
    (applyCall sampleEnv (deploy 1 5) (.storeRandomness 9)).userProvidedIdFulfilled 9 = true ∧
    (applyCall sampleEnv (deploy 1 5) (.storeRandomness 9)).userProvidedIdFulfilled 3 =
      (deploy 1 5).userProvidedIdFulfilled 3 := by
  have h := (storeRandomness_spec sampleEnv (deploy 1 5) 9 (by decide)).2.2 rfl (by decide)
  exact ⟨h.1, h.2.1, h.2.2.1, h.2.2.2.1, h.2.2.2.2.1, (h.2.2.2.2.2 3 (by decide)).2.2.2⟩

/-- Claim C4: whenever `getRandomPriceVariation` returns with `fulfilled`,
the variation factor equals `(randomValue mod (2 P + 1)) - P`, lies in
`[-P, P]`, and the final price is the base price adjusted by the
truncating-division formula of the spec. -/
theorem getRandomPriceVariation_spec (s : RandomizerState) (id : Bytes32)
    (basePrice variationPercent fp : Nat) (vf : Int)
    (h : getRandomPriceVariation s id basePrice variationPercent = .ok (fp, vf, true)) :
    vf = ((s.userProvidedIdToRandomValue id % (2 * variationPercent + 1) : Nat) : Int) -
      (variationPercent : Int) ∧
    -(variationPercent : Int) ≤ vf ∧ vf ≤ (variationPercent : Int) ∧
    (0 ≤ vf → fp = basePrice + basePrice * vf.toNat / 100) ∧
    (vf < 0 → fp = basePrice - basePrice * (-vf).toNat / 100) := by
  unfold getRandomPriceVariation at h
  split at h
  next => simp at h
  next => exact priceVariationCore_ok h

/-- Claim C4 witness: the worked example of the spec — stored random value 36
(`36 mod 21 = 15`), base price 10000 and bound 10 give factor `15 - 10 = 5`
and final price `10000 + 500 = 10500`. -/
theorem getRandomPriceVariation_spec_witness :
    getRandomPriceVariation sampleFulfilled 9 10000 10 = .ok (10500, 5, true) ∧
    ((5 : Int) =
        ((sampleFulfilled.userProvidedIdToRandomValue 9 % (2 * 10 + 1) : Nat) : Int) -
          ((10 : Nat) : Int) ∧
      -((10 : Nat) : Int) ≤ (5 : Int) ∧ (5 : Int) ≤ ((10 : Nat) : Int) ∧
      ((0 : Int) ≤ 5 → (10500 : Nat) = 10000 + 10000 * (5 : Int).toNat / 100) ∧
      ((5 : Int) < 0 → (10500 : Nat) = 10000 - 10000 * (-(5 : Int)).toNat / 100)) := by
  have h : getRandomPriceVariation sampleFulfilled 9 10000 10 = .ok (10500, 5, true) := by rfl
  exact ⟨h, getRandomPriceVariation_spec sampleFulfilled 9 10000 10 10500 5 h⟩

/-- Claim C5: for a fulfilled id, `getNormalizedRandomValue` returns the
stored random value mod 1000, a value at most 999, and the result depends on
the stored random value alone. -/
theorem getNormalizedRandomValue_spec (s : RandomizerState) (id : Bytes32)
    (h : s.userProvidedIdFulfilled id = true) :
    getNormalizedRandomValue s id = (s.userProvidedIdToRandomValue id % 1000, true) ∧
    (getNormalizedRandomValue s id).1 ≤ 999 ∧
    (∀ (s' : RandomizerState) (id' : Bytes32),
      s'.userProvidedIdFulfilled id' = true →
      s'.userProvidedIdToRandomValue id' = s.userProvidedIdToRandomValue id →
      getNormalizedRandomValue s' id' = getNormalizedRandomValue s id) := by
  have hmain : getNormalizedRandomValue s id =
      (s.userProvidedIdToRandomValue id % 1000, true) := by
    unfold getNormalizedRandomValue
    rw [h]
    simp
  refine ⟨hmain, ?_, ?_⟩
  · rw [hmain]
    have : s.userProvidedIdToRandomValue id % 1000 < 1000 := Nat.mod_lt _ (by omega)
    omega
  · intro s' id' h' heq
    unfold getNormalizedRandomValue
    rw [h, h', heq]

/-- Claim C5 witness: the sample fulfilled id normalizes to `36 mod 1000`,
which is at most 999. -/
theorem getNormalizedRandomValue_spec_witness :
    getNormalizedRandomValue sampleFulfilled 9 =
      (sampleFulfilled.userProvidedIdToRandomValue 9 % 1000, true) ∧
    (getNormalizedRandomValue sampleFulfilled 9).1 ≤ 999 := by
  have h := getNormalizedRandomValue_spec sampleFulfilled 9 (by decide)
  exact ⟨h.1, h.2.1⟩

/-- Claim C6: the three read entry points (and the metadata getter) leave the
contract state untouched, and on an id with no stored record each returns a
`fulfilled = false` sentinel rather than reverting. -/
theorem randomizer_views_pure (env : Env) (s : RandomizerState) (id : Bytes32)
    (basePrice variationPercent : Nat) :
    applyCall env s (.getRandomValue id) = s ∧
    applyCall env s (.getRandomnessMeta id) = s ∧
    applyCall env s (.getNormalizedRandomValue id) = s ∧
    applyCall env s (.getRandomPriceVariation id basePrice variationPercent) = s ∧
    (s.userProvidedIdFulfilled id = false →
      getRandomValue s id = (s.userProvidedIdToRandomValue id, false) ∧
      getRandomnessMeta s id = (false, 0, false) ∧
      getNormalizedRandomValue s id = (0, false) ∧
      getRandomPriceVariation s id basePrice variationPercent = .ok (basePrice, 0, false)) := by
  refine ⟨rfl, rfl, rfl, rfl, fun hf => ⟨?_, ?_, ?_, ?_⟩⟩
  · unfold getRandomValue
    rw [hf]
  · unfold getRandomnessMeta
    rw [hf]
    simp
  · unfold getNormalizedRandomValue
    rw [hf]
    simp
  · unfold getRandomPriceVariation
    rw [hf]
    simp

/-- Claim C6 witness: on a fresh deployment the getters return the sentinels
for the unfulfilled id 9 and do not change the state. -/
theorem randomizer_views_pure_witness :
    applyCall sampleEnv (deploy 1 5) (.getRandomValue 9) = deploy 1 5 ∧
    applyCall sampleEnv (deploy 1 5) (.getRandomPriceVariation 9 10 10) = deploy 1 5 ∧
    getRandomValue (deploy 1 5) 9 = ((deploy 1 5).userProvidedIdToRandomValue 9, false) ∧
    getRandomnessMeta (deploy 1 5) 9 = (false, 0, false) ∧
    getNormalizedRandomValue (deploy 1 5) 9 = (0, false) ∧
    getRandomPriceVariation (deploy 1 5) 9 10 10 = .ok (10, 0, false) := by
  have h := randomizer_views_pure sampleEnv (deploy 1 5) 9 10 10
  have hs := h.2.2.2.2 rfl
  exact ⟨h.1, h.2.2.2.1, hs.1, hs.2.1, hs.2.2.1, hs.2.2.2⟩

/-- Claim C7 counterexample: `updateRegistry` is an operation available after
deployment that does mutate the shared registry address — the owner changes
it from 5 to 9999 while a request (id 9) is fulfilled and in flight. -/
theorem updateRegistry_mutates_registry :
    updateRegistry 1 sampleFulfilled 9999 = .ok { sampleFulfilled with registry := 9999 } ∧
    (applyCall sampleEnv sampleFulfilled (.updateRegistry 1 9999)).registry = 9999 ∧
    sampleFulfilled.registry = 5 ∧
    sampleFulfilled.userProvidedIdFulfilled 9 = true := by
  exact ⟨rfl, rfl, rfl, rfl⟩

/-- Claim C7 (amended): the registry address is owner-gated rather than
immutable — a non-owner `updateRegistry` reverts with the only-owner error and
changes nothing, and no entry point other than `updateRegistry` writes the
registry (or the owner) slot. -/
theorem registry_owner_gated (env : Env) (s : RandomizerState) (c : Call) :
    (∀ caller newRegistry, caller ≠ s.owner →
      updateRegistry caller s newRegistry = .error .onlyOwner ∧
      applyCall env s (.updateRegistry caller newRegistry) = s) ∧
    (c.isUpdateRegistry = false → (applyCall env s c).registry = s.registry) ∧
    (applyCall env s c).owner = s.owner := by
  refine ⟨?_, applyCall_registry env s c, applyCall_owner env s c⟩
  intro caller newRegistry hc
  have he : updateRegistry caller s newRegistry = .error .onlyOwner := by
    unfold updateRegistry
    rw [if_neg hc]
  exact ⟨he, by simp only [applyCall, he]⟩

/-- Claim C7 witness: address 2 is not the owner, so its `updateRegistry`
reverts and the state is untouched; a `withdraw` call leaves the registry
slot unchanged. -/
theorem registry_owner_gated_witness :
    (updateRegistry 2 sampleFulfilled 9999 = .error .onlyOwner ∧
      applyCall sampleEnv sampleFulfilled (.updateRegistry 2 9999) = sampleFulfilled) ∧
    (applyCall sampleEnv sampleFulfilled (.withdraw 1)).registry = sampleFulfilled.registry ∧
    (applyCall sampleEnv sampleFulfilled (.withdraw 1)).owner = sampleFulfilled.owner := by
  have h := registry_owner_gated sampleEnv sampleFulfilled (.withdraw 1)
  exact ⟨h.1 2 9999 (by decide), h.2.1 rfl, h.2.2⟩

/-- Claim C9: the constructor sets `owner` to the deployer, no sequence of
calls ever changes `owner`, and `updateRegistry` and `withdraw` from any
sender other than the owner revert with the only-owner error, leaving the
whole state unchanged. -/
theorem owner_fixed_and_only_owner (deployer registryAddr : Address) (env : Env)
    (s : RandomizerState) (calls : List (Env × Call)) :
    (deploy deployer registryAddr).owner = deployer ∧
    (applyCalls s calls).owner = s.owner ∧
    (∀ caller newRegistry, caller ≠ s.owner →
      updateRegistry caller s newRegistry = .error .onlyOwner ∧
      applyCall env s (.updateRegistry caller newRegistry) = s) ∧
    (∀ caller, caller ≠ s.owner →
      withdraw caller s = .error .onlyOwner ∧
      applyCall env s (.withdraw caller) = s) := by
  refine ⟨rfl, applyCalls_owner s calls, ?_, ?_⟩
  · intro caller newRegistry hc
    have he : updateRegistry caller s newRegistry = .error .onlyOwner := by
      unfold updateRegistry
      rw [if_neg hc]
    exact ⟨he, by simp only [applyCall, he]⟩
  · intro caller hc
    have he : withdraw caller s = .error .onlyOwner := by
      unfold withdraw
      rw [if_neg hc]
    exact ⟨he, by simp only [applyCall, he]⟩

/-- Claim C9 witness: deploying from address 1 records owner 1; a concrete
call sequence preserves the owner; sender 2 is rejected by both owner-gated
entry points with no state change. -/
theorem owner_fixed_and_only_owner_witness :
    (deploy 1 5).owner = 1 ∧
    (applyCalls sampleFulfilled [(sampleEnv, .withdraw 1)]).owner = sampleFulfilled.owner ∧
    (updateRegistry 2 sampleFulfilled 9999 = .error .onlyOwner ∧
      applyCall sampleEnv sampleFulfilled (.updateRegistry 2 9999) = sampleFulfilled) ∧
    (withdraw 2 sampleFulfilled = .error .onlyOwner ∧
      applyCall sampleEnv sampleFulfilled (.withdraw 2) = sampleFulfilled) := by
  have h := owner_fixed_and_only_owner 1 5 sampleEnv sampleFulfilled [(sampleEnv, .withdraw 1)]
  exact ⟨h.1, h.2.1, h.2.2.1 2 9999 (by decide), h.2.2.2 2 (by decide)⟩

/-- Claim C10: whenever `getRandomPriceVariation` returns with `fulfilled`
and `basePrice * |variationFactor| < 100`, the truncating division zeroes the
adjustment and the final price equals the base price exactly. -/
theorem small_base_price_variation_noop (s : RandomizerState) (id : Bytes32)
    (basePrice variationPercent fp : Nat) (vf : Int)
    (h : getRandomPriceVariation s id basePrice variationPercent = .ok (fp, vf, true))
    (hsmall : basePrice * vf.natAbs < 100) : fp = basePrice := by
  unfold getRandomPriceVariation at h
  split at h
  next => simp at h
  next =>
    obtain ⟨-, -, -, hpos, hneg⟩ := priceVariationCore_ok h
    by_cases hv : 0 ≤ vf
    · have htn : vf.toNat = vf.natAbs := by omega
      rw [hpos hv, htn, Nat.div_eq_of_lt hsmall, Nat.add_zero]
    · push_neg at hv
      have htn : (-vf).toNat = vf.natAbs := by omega
      rw [hneg hv, htn, Nat.div_eq_of_lt hsmall, Nat.sub_zero]

/-- Claim C10 witness: base price 3 with factor 5 gives `3 * 5 / 100 = 0`, so
the final price is exactly 3 despite the nonzero factor. -/
theorem small_base_price_variation_noop_witness :
    getRandomPriceVariation sampleFulfilled 9 3 10 = .ok (3, 5, true) ∧
    3 * (5 : Int).natAbs < 100 ∧
    (3 : Nat) = 3 := by
  have h : getRandomPriceVariation sampleFulfilled 9 3 10 = .ok (3, 5, true) := by rfl
  exact ⟨h, by decide, small_base_price_variation_noop sampleFulfilled 9 3 10 3 5 h (by decide)⟩

end DataPurchaseRandomizer

namespace DataPurchase

/-- Claim C1: `deliverData` succeeds at most once per request id — after a
successful delivery, a second `deliverData` with any arguments reverts with
`AlreadyDelivered` and leaves the ledger (hence the stored `dataHash` and the
rest of the request record) unchanged. Modelled from the spec, the
`DataPurchase` contract source being absent. -/
theorem deliverData_at_most_once (env : LedgerEnv) (s0 s : LedgerState)
    (requestId a1 a2 : Nat) (p1 p2 : List Nat)
    (h : deliverData env s0 requestId a1 p1 = .ok s) :
    deliverData env s requestId a2 p2 = .error .alreadyDelivered ∧
    applyDeliver env s requestId a2 p2 = s := by
  have hreq : ∃ r : PurchaseRequest, s.requests requestId = some r ∧ r.state = .delivered := by
    unfold deliverData at h
    split at h
    next => exact absurd h (by simp)
    next r hr =>
      split at h
      next => exact absurd h (by simp)
      next =>
        split at h
        next => exact absurd h (by simp)
        next =>
          simp only [Except.ok.injEq] at h
          subst h
          refine ⟨{ r with state := .delivered, dataHash := env.computeHash a1 p1 }, ?_, rfl⟩
          simp
  obtain ⟨r, hr, hst⟩ := hreq
  have he : deliverData env s requestId a2 p2 = .error .alreadyDelivered := by
    unfold deliverData
    rw [hr]
    simp [hst]
  exact ⟨he, by unfold applyDeliver; rw [he]⟩

/-- Claim C1 witness: delivering request 2 once succeeds; the second delivery
with different arguments reverts with `AlreadyDelivered` and the ledger is
unchanged. -/
theorem deliverData_at_most_once_witness :
    deliverData sampleLedgerEnv sampleLedger0 2 5 [1, 2] = .ok sampleLedger1 ∧
    deliverData sampleLedgerEnv sampleLedger1 2 8 [9] = .error .alreadyDelivered ∧
    applyDeliver sampleLedgerEnv sampleLedger1 2 8 [9] = sampleLedger1 := by
  have h0 : deliverData sampleLedgerEnv sampleLedger0 2 5 [1, 2] = .ok sampleLedger1 := rfl
  have h := deliverData_at_most_once sampleLedgerEnv sampleLedger0 sampleLedger1 2 5 8 [1, 2] [9] h0
  exact ⟨h0, h.1, h.2⟩

end DataPurchase

namespace BlockchainController

/-- Claim C8: the status query is not idempotent — the controller draws fresh
PRNG values on every invocation, so two `POST /verify` calls with the same
`requestId` and no intervening state change can return different results
(here: `verified` is `true` in a call whose draws are all `3/4` and `false`
in a later call whose draws are all `1/4`). -/
theorem verifyAttestation_not_idempotent :
    verifyAttestation (fun _ => 3 * 2 ^ 51) (some "0x1") ≠
      verifyAttestation (fun _ => 2 ^ 51) (some "0x1") := by
  decide

end BlockchainController
